import Mathlib

/-!
Verification of the chess position database (chess_pos_db) against its
specification.  The C++ sources are shallowly embedded: pure functions become
Lean functions over `Nat` (with explicit `% 2^w` / masks where machine-width
matters), stateful components become explicit state-passing functions, and
fallible code returns `Option` / `Except`.

Sources embedded here:
  - src/PositionSignature.h        (PositionSignature, PositionSignatureWithReverseMove)
  - src/ArithmeticUtility.h        (persistence::local: Entry, File::queryRanges,
                                    AsyncStorePipeline, Partition, Database)
  - src/unnamed/part_000           (pgn: parseGameResult, seekTagValue, LazyPgnFileReader)
  - src/unnamed/part_001           (persistence::Header / HeaderEntry)
  - src/unnamed/part_003           (socket framing: receiveLength, MessageReceiver)
  - src/src/chess/Bcgn.cpp         (BcgnGameEntryBuffer::writeTo)
-/

set_option maxRecDepth 10000

namespace ChessPosDb

/-! ## Chess primitives used by the embedded code -/

/-- `Color` from Chess.h; `ordinal` is the underlying integer. -/
inductive Color where
  | White
  | Black
deriving DecidableEq

/-- `ordinal(Color)` from Chess.h (`static_cast<IdType>(c)`). -/
def Color.ordinal : Color → Nat
  | .White => 0
  | .Black => 1

/-- The parts of `Position` the embedded code reads: the 64-byte raw piece
placement (`piecesRaw()`), the side to move, and the castling-rights /
en-passant state that `Position::hash()` additionally mixes in.  The chess
rules kernel itself is out of scope (spec §1). -/
structure Position where
  piecesRaw : List Nat
  sideToMove : Color
  epSquare : Nat
  castlingRights : Nat
deriving DecidableEq

/-- The four 32-bit limbs of a 128-bit signature
(`std::array<std::uint32_t, 4>`, `m_hash[0]` most significant). -/
structure Sig where
  h0 : Nat
  h1 : Nat
  h2 : Nat
  h3 : Nat
deriving DecidableEq

/-! ## PositionSignature.h -/

/-- `PositionSignature::PositionSignature(const Position&)`
(PositionSignature.h:20-25): the 128-bit xxhash of the 64 raw piece bytes,
with `ordinal(sideToMove)` XORed into limb 0.  The third-party xxhash
implementation (lib/xxhash) is out of scope, so the embedding is
parameterised by the hash function `xxh`. -/
def mkPositionSignature (xxh : List Nat → Sig) (pos : Position) : Sig :=
  let h := xxh pos.piecesRaw
  { h with h0 := h.h0 ^^^ pos.sideToMove.ordinal }

/-- `operator<(PositionSignature, PositionSignature)`
(PositionSignature.h:41-53): lexicographic over limbs 0..3. -/
def sigLess (lhs rhs : Sig) : Bool :=
  if lhs.h0 < rhs.h0 then true
  else if lhs.h0 > rhs.h0 then false
  else if lhs.h1 < rhs.h1 then true
  else if lhs.h1 > rhs.h1 then false
  else if lhs.h2 < rhs.h2 then true
  else if lhs.h2 > rhs.h2 then false
  else lhs.h3 < rhs.h3

/-- Modelled from the spec: `PackedReverseMove` is defined in Position.h,
which is not under src/.  Spec §3 ("Packed reverse move (≤27 bits) ... Its
bit field occupies the low bits of limb 3") and the field layout comment in
src/unnamed/part_002 line 49 ("PackedReverseMove:27") give a 27-bit field,
so `PackedReverseMove::numBits = 27`. -/
def packedReverseMoveNumBits : Nat := 27

/-- Modelled from the spec: `PackedReverseMove::mask`, the mask of the
27 low bits holding the packed reverse move. -/
def packedReverseMoveMask : Nat := 2 ^ packedReverseMoveNumBits - 1

/-- `~PackedReverseMove::mask` evaluated on `std::uint32_t`. -/
def packedReverseMoveMaskComplement32 : Nat := 2 ^ 32 - 1 - packedReverseMoveMask

/-- A packed reverse move: a value that fits in the 27-bit field.
`packed()` is the raw field value; zero means "unspecified". -/
structure PackedReverseMove where
  packed : Nat
  isLt : packed < 2 ^ packedReverseMoveNumBits

/-- `PositionSignatureWithReverseMove::PositionSignatureWithReverseMove`
(PositionSignature.h:84-95): same hash as `PositionSignature`, then
`m_hash[3] = (m_hash[3] & ~PackedReverseMove::mask) | packedReverseMove.packed()`. -/
def mkSigWithReverseMove (xxh : List Nat → Sig) (pos : Position)
    (reverseMove : PackedReverseMove) : Sig :=
  let h := xxh pos.piecesRaw
  { h0 := h.h0 ^^^ pos.sideToMove.ordinal
    h1 := h.h1
    h2 := h.h2
    h3 := (h.h3 &&& packedReverseMoveMaskComplement32) ||| reverseMove.packed }

/-- `PositionSignatureWithReverseMove::CompareLessWithReverseMove`
(PositionSignature.h:107-122): lexicographic over the four full limbs. -/
def compareLessWithReverseMove (lhs rhs : Sig) : Bool :=
  if lhs.h0 < rhs.h0 then true
  else if lhs.h0 > rhs.h0 then false
  else if lhs.h1 < rhs.h1 then true
  else if lhs.h1 > rhs.h1 then false
  else if lhs.h2 < rhs.h2 then true
  else if lhs.h2 > rhs.h2 then false
  else lhs.h3 < rhs.h3

/-- `PositionSignatureWithReverseMove::CompareLessWithoutReverseMove`
(PositionSignature.h:124-139): limbs 0..2 lexicographic, then limb 3 with
the reverse-move bits masked off. -/
def compareLessWithoutReverseMove (lhs rhs : Sig) : Bool :=
  if lhs.h0 < rhs.h0 then true
  else if lhs.h0 > rhs.h0 then false
  else if lhs.h1 < rhs.h1 then true
  else if lhs.h1 > rhs.h1 then false
  else if lhs.h2 < rhs.h2 then true
  else if lhs.h2 > rhs.h2 then false
  else (lhs.h3 &&& packedReverseMoveMaskComplement32) < (rhs.h3 &&& packedReverseMoveMaskComplement32)

/-- `PositionSignatureWithReverseMove::CompareEqualWithReverseMove`
(PositionSignature.h:141-151). -/
def compareEqualWithReverseMove (lhs rhs : Sig) : Bool :=
  lhs.h0 = rhs.h0 && lhs.h1 = rhs.h1 && lhs.h2 = rhs.h2 && lhs.h3 = rhs.h3

/-- `PositionSignatureWithReverseMove::CompareEqualWithoutReverseMove`
(PositionSignature.h:153-163). -/
def compareEqualWithoutReverseMove (lhs rhs : Sig) : Bool :=
  lhs.h0 = rhs.h0 && lhs.h1 = rhs.h1 && lhs.h2 = rhs.h2 &&
    (lhs.h3 &&& packedReverseMoveMaskComplement32) = (rhs.h3 &&& packedReverseMoveMaskComplement32)

/-! ## persistence::local::Entry (ArithmeticUtility.h:138-183) -/

/-- `persistence::local::Entry`: a position signature plus the game index. -/
structure EntryL where
  positionSignature : Sig
  gameIdx : Nat
deriving DecidableEq

/-- `Entry::Entry(const Position&, std::uint32_t)` (ArithmeticUtility.h:142-146). -/
def mkEntryL (xxh : List Nat → Sig) (pos : Position) (gameIdx : Nat) : EntryL :=
  { positionSignature := mkPositionSignature xxh pos, gameIdx := gameIdx }

/-! ## persistence::local::Partition id assignment (ArithmeticUtility.h:617-755) -/

/-- The id state of a `Partition`: `m_files` holds the installed runs' ids in
vector order, `m_futureFiles` is the `std::set<FutureFile>` ordered by id,
modelled as a sorted list. -/
structure PartitionIds where
  files : List Nat
  futureFiles : List Nat
deriving DecidableEq

/-- `Partition::nextId()` (ArithmeticUtility.h:693-706): if the future set is
non-empty, the last (greatest) future id + 1; else if any files are
installed, `m_files.back().id() + 1`; else 0. -/
def nextId (p : PartitionIds) : Nat :=
  match p.futureFiles.getLast? with
  | some id => id + 1
  | none =>
    match p.files.getLast? with
    | some id => id + 1
    | none => 0

/-- Modelled from the spec (for the refinement comparison only): "nextId() is
max(max installed id, max future id) + 1, or 0 if both are empty". -/
def specNextId (p : PartitionIds) : Nat :=
  match (p.files ++ p.futureFiles).foldr (fun a m => max a m) 0, p.files ++ p.futureFiles with
  | _, [] => 0
  | m, _ => m + 1

/-! ## persistence::local::AsyncStorePipeline (ArithmeticUtility.h:431-615) -/

/-- A pipeline job (`AsyncStorePipeline::Job`): destination path and entry
buffer; the `std::promise` is the job's identity and is left implicit. -/
structure PipelineJob where
  path : String
  buffer : List EntryL
deriving DecidableEq

/-- Which condition variable a schedule call notifies. -/
inductive PipelineCV where
  | sortQueueNotEmpty
  | writeQueueNotEmpty
  | bufferQueueNotEmpty
deriving DecidableEq

/-- The three queues guarded by the pipeline mutex. -/
structure PipelineState where
  sortQueue : List PipelineJob
  writeQueue : List PipelineJob
  bufferQueue : List (List EntryL)
deriving DecidableEq

/-- `AsyncStorePipeline::scheduleUnordered` (ArithmeticUtility.h:476-488):
emplaces the job onto `m_sortQueue` and notifies `m_sortQueueNotEmpty`. -/
def scheduleUnordered (s : PipelineState) (path : String) (elements : List EntryL) :
    PipelineState × PipelineCV :=
  ({ s with sortQueue := s.sortQueue ++ [{ path := path, buffer := elements }] },
   PipelineCV.sortQueueNotEmpty)

/-- `AsyncStorePipeline::scheduleOrdered` (ArithmeticUtility.h:490-502):
the source emplaces the job onto `m_sortQueue` (not `m_writeQueue`) and then
notifies `m_writeQueueNotEmpty`. -/
def scheduleOrdered (s : PipelineState) (path : String) (elements : List EntryL) :
    PipelineState × PipelineCV :=
  ({ s with sortQueue := s.sortQueue ++ [{ path := path, buffer := elements }] },
   PipelineCV.writeQueueNotEmpty)

/-- One dequeue step of `AsyncStorePipeline::runSortingThread`
(ArithmeticUtility.h:552-579): pop the front of `m_sortQueue`, stable-sort the
buffer by `operator<` (signature order), move the job to `m_writeQueue`. -/
def runSortingThreadStep (s : PipelineState) : PipelineState :=
  match s.sortQueue with
  | [] => s
  | job :: rest =>
    let sorted := job.buffer.mergeSort (fun a b => !sigLess b.positionSignature a.positionSignature)
    { s with
      sortQueue := rest
      writeQueue := s.writeQueue ++ [{ job with buffer := sorted }] }

/-- One dequeue step of `AsyncStorePipeline::runWritingThread`
(ArithmeticUtility.h:581-614): the write thread only ever takes jobs from the
front of `m_writeQueue`; the job's (now empty) buffer returns to the pool. -/
def runWritingThreadStep (s : PipelineState) : PipelineState × Option PipelineJob :=
  match s.writeQueue with
  | [] => (s, none)
  | job :: rest =>
    ({ s with writeQueue := rest, bufferQueue := s.bufferQueue ++ [[]] }, some job)

/-! ## persistence::Header (src/unnamed/part_001:133-192) -/

/-- The header store: `m_header` is the append-only byte log
(`ext::Vector<char>`), `m_index` the parallel offset array
(`ext::Vector<std::size_t>`). -/
structure HeaderStore where
  header : List Nat
  index : List Nat
deriving DecidableEq

/-- `Header::addHeader` (part_001:183-191): record the byte log's pre-append
size, append the serialized entry bytes, append that size to the offset
array, and return `m_index.size() - 1`.  (The source reads the pre-append
size just before taking the per-store mutex; sequentially that is the size at
the time of the append.) -/
def addHeader (s : HeaderStore) (entryBytes : List Nat) : HeaderStore × Nat :=
  let headerSizeBytes := s.header.length
  let s' : HeaderStore :=
    { header := s.header ++ entryBytes
      index := s.index ++ [headerSizeBytes] }
  (s', s'.index.length - 1)

/-- A sequence of `Header::addGame` calls: threads the store state through and
collects the returned game indices. -/
def addGameRun (s : HeaderStore) : List (List Nat) → HeaderStore × List Nat
  | [] => (s, [])
  | bytes :: rest =>
    let (s', idx) := addHeader s bytes
    let (s'', idxs) := addGameRun s' rest
    (s'', idx :: idxs)

/-! ## pgn result parsing (src/unnamed/part_000:121-150, 276-323) -/

/-- `pgn::GameResult` (part_000:17-23). -/
inductive PgnGameResult where
  | WhiteWin
  | BlackWin
  | Draw
  | Unknown
deriving DecidableEq

/-- `GameResult` from GameClassification.h (spec §3): white-win, black-win,
draw; 2 bits. -/
inductive GameResultM where
  | WhiteWin
  | BlackWin
  | Draw
deriving DecidableEq

/-- `Database::convertResult` (ArithmeticUtility.h:1527-1532):
`static_cast<GameResult>(static_cast<int>(res))` after asserting
`res != Unknown`.  The `Unknown` branch is unreachable at every call site
(guarded by the skip check); it is mapped like ordinal 0 here. -/
def convertResult : PgnGameResult → GameResultM
  | .WhiteWin => .WhiteWin
  | .BlackWin => .BlackWin
  | .Draw => .Draw
  | .Unknown => .WhiteWin

/-- `std::strstr`: the suffix of `hay` starting at the first occurrence of
`pat`, or `none` when `pat` does not occur. -/
def findSubstr? (hay pat : List Char) : Option (List Char) :=
  if pat.isPrefixOf hay then some hay
  else
    match hay with
    | [] => none
    | _ :: t => findSubstr? t pat

/-- `std::strchr`: the suffix of `hay` starting at the first occurrence of
the character `c`, or `none`. -/
def findChar? (hay : List Char) (c : Char) : Option (List Char) :=
  match hay with
  | [] => none
  | x :: t => if x = c then some (x :: t) else findChar? t c

/-- `pgn::detail::seekTagValue` (part_000:121-130): `strstr` for the tag
name, then `strchr` for the following quote character. -/
def seekTagValue (region : List Char) (tag : List Char) : Option (List Char) :=
  match findSubstr? region tag with
  | none => none
  | some fromTag => findChar? fromTag '"'

/-- `pgn::detail::parseGameResult` (part_000:134-150): `begin` points at the
quote; the character at `begin + 3` decides the result, defaulting to
`Unknown`. -/
def parseGameResult (s : List Char) : PgnGameResult :=
  match s.get? 3 with
  | some '0' => .WhiteWin
  | some '1' => .BlackWin
  | some '2' => .Draw
  | _ => .Unknown

/-- An `UnparsedGame` as the import loop consumes it.  `result()` passes
`m_tagRegion.begin()` to `seekTagValue`, whose `strstr`/`strchr` scan the
NUL-terminated buffer and are not bounded by the region's end
(part_000:121-130; the TODO at part_000:27 notes the missing region bounds),
so `fromTagRegion` holds the buffer contents from the tag region's start all
the way to the terminating NUL — the game's own tag region, its move region,
and any following games still in the window.  `positions` is the sequence of
positions the move text yields (`game.positions()`; enumerating them belongs
to the chess kernel, so the list is given). -/
structure UnparsedGameM where
  fromTagRegion : List Char
  positions : List Position
deriving DecidableEq

/-- `UnparsedGame::result()` (part_000:294-303): seek the `Result` tag value
with `strstr` from the tag region's start; the search runs to the buffer's
NUL, so it can find a later game's `Result` tag when the game itself has
none.  `Unknown` when no tag is found anywhere in the remaining buffer. -/
def gameResult (g : UnparsedGameM) : PgnGameResult :=
  match seekTagValue g.fromTagRegion ("Result".toList) with
  | none => .Unknown
  | some s => parseGameResult s

/-! ## Database::importPgnsImpl game loop (ArithmeticUtility.h:1134-1200) -/

/-- `persistence::local::ImportStats` (ArithmeticUtility.h:771-785). -/
structure ImportStats where
  numGames : Nat
  numSkippedGames : Nat
  numPositions : Nat
deriving DecidableEq

/-- The state threaded through the per-game import loop: the statistics, the
header store's record count (`Header::addGame` appends one record and returns
the pre-append count, cf. `addHeader`), and the per-result entry buckets
(`buckets[result]`; the single hash partition of the local format).  Entries
flushed to the pipeline keep their bucket's multiset, so each bucket here
accumulates every entry emitted for that result. -/
structure ImportState where
  stats : ImportStats
  headerCount : Nat
  bucketW : List EntryL
  bucketL : List EntryL
  bucketD : List EntryL
deriving DecidableEq

/-- Append an entry to the bucket selected by the converted game result. -/
def pushBucket (st : ImportState) (result : GameResultM) (e : EntryL) : ImportState :=
  match result with
  | .WhiteWin => { st with bucketW := st.bucketW ++ [e] }
  | .BlackWin => { st with bucketL := st.bucketL ++ [e] }
  | .Draw => { st with bucketD := st.bucketD ++ [e] }

/-- The body of the per-game loop in `Database::importPgnsImpl`
(ArithmeticUtility.h:1156-1191): games whose result is `Unknown` only
increment `numSkippedGames`; otherwise a game index is taken from the header
store, one entry per enumerated position goes to the result's bucket, and
`numGames` / `numPositions` are updated. -/
def importGame (xxh : List Nat → Sig) (st : ImportState) (g : UnparsedGameM) : ImportState :=
  let pgnResult := gameResult g
  if pgnResult = PgnGameResult.Unknown then
    { st with stats := { st.stats with numSkippedGames := st.stats.numSkippedGames + 1 } }
  else
    let result := convertResult pgnResult
    let gameIdx := st.headerCount
    let st := { st with headerCount := st.headerCount + 1 }
    let st := g.positions.foldl (fun acc pos => pushBucket acc result (mkEntryL xxh pos gameIdx)) st
    { st with stats :=
        { st.stats with
          numGames := st.stats.numGames + 1
          numPositions := st.stats.numPositions + g.positions.length } }

/-- The import loop over the games of the input archives. -/
def importPgnsImplM (xxh : List Nat → Sig) (st : ImportState) (games : List UnparsedGameM) : ImportState :=
  games.foldl (importGame xxh) st

/-- Total number of entries across the three result buckets. -/
def totalEntries (st : ImportState) : Nat :=
  st.bucketW.length + st.bucketL.length + st.bucketD.length

/-- The initial import state: zero statistics, empty header store, empty
buckets. -/
def initImportState : ImportState :=
  { stats := { numGames := 0, numSkippedGames := 0, numPositions := 0 }
    headerCount := 0
    bucketW := []
    bucketL := []
    bucketD := [] }

/-! ## pgn::LazyPgnFileReader (src/unnamed/part_000:327-501) -/

/-- `LazyPgnFileReader::bufferSize` (part_000:388). -/
def pgnBufferSize : Nat := 1024 * 32

/-- The reader's state: `content` is the C-string currently in the buffer
(everything up to the terminating NUL), `firstUnprocessed` the offset of
`m_firstUnprocessed` inside it, and `stream` the file bytes not yet read. -/
structure PgnReaderState where
  content : List Char
  firstUnprocessed : Nat
  stream : List Char
deriving DecidableEq

/-- Index of the first `"\n\n"` game-boundary sequence (the `std::strstr`
calls in `moveToNextGame` search for `tagRegionEndSequence` /
`moveRegionEndSequence`, both `"\n\n"`). -/
def findGameBoundary? : List Char → Option Nat
  | c1 :: c2 :: rest =>
    if c1 = '\n' ∧ c2 = '\n' then some 0
    else (findGameBoundary? (c2 :: rest)).map (· + 1)
  | _ => none

/-- `LazyPgnFileReader::refillBuffer` (part_000:477-500).  With
`np = numBytesProcessed` (replaced by `bufferSize` when zero, "scrap the
whole buffer"): the unprocessed suffix is memmoved to the start and
`np` further bytes are read behind it, with the NUL re-written after the
bytes actually read.  When the old contents were shorter than the buffer
(a previous short read), the moved block carries its old NUL along, so the
newly read bytes stay invisible behind it; the read still consumes the
stream. -/
def refillBuffer (s : PgnReaderState) : PgnReaderState :=
  let np := if s.firstUnprocessed = 0 then pgnBufferSize else s.firstUnprocessed
  let content' :=
    if np = pgnBufferSize then s.stream.take pgnBufferSize
    else if s.content.length = pgnBufferSize then
      s.content.drop np ++ s.stream.take np
    else
      s.content.drop np
  { content := content', firstUnprocessed := 0, stream := s.stream.drop np }

/-- The constructor's initial read (part_000:390-410): fill the buffer from
the file and NUL-terminate. -/
def initPgnReader (file : List Char) : PgnReaderState :=
  { content := file.take pgnBufferSize
    firstUnprocessed := 0
    stream := file.drop pgnBufferSize }

/-- `LazyPgnFileReader::moveToNextGame` (part_000:435-466), with explicit
fuel for the `while` loop (out of fuel returns `none` with the state
unchanged; every run below is given enough fuel).  The loop runs while
`m_buffer.front() != '\0'` (`content ≠ []`); when both `"\n\n"` boundaries
are in the window it yields the tag and move regions and commits
`m_firstUnprocessed = moveend + 2`, otherwise it refills and retries.  The
iteration ends (`none`) when the buffer starts with NUL; no error outcome
exists in the source. -/
def moveToNextGame : Nat → PgnReaderState → Option (List Char × List Char) × PgnReaderState
  | 0, s => (none, s)
  | fuel + 1, s =>
    if s.content = [] then (none, s)
    else
      let window := s.content.drop s.firstUnprocessed
      match findGameBoundary? window with
      | none => moveToNextGame fuel (refillBuffer s)
      | some tagendRel =>
        let afterTag := window.drop (tagendRel + 2)
        match findGameBoundary? afterTag with
        | none => moveToNextGame fuel (refillBuffer s)
        | some moveendRel =>
          (some (window.take tagendRel, afterTag.take moveendRel),
           { s with firstUnprocessed := s.firstUnprocessed + tagendRel + 2 + moveendRel + 2 })

/-! ## bcgn::detail::BcgnGameEntryBuffer (src/src/chess/Bcgn.cpp:223-446) -/

/-- `traits::maxStringLength` for BCGN strings. -/
def bcgnMaxStringLength : Nat := 255

/-- The per-game entry buffer.  The four name strings hold the bytes already
clamped by their setters (`setWhitePlayer` etc. store at most 255 bytes);
`customStartPos` is the 24-byte compressed start position when present. -/
structure BcgnGameEntryBuffer where
  year : Nat
  month : Nat
  day : Nat
  whiteElo : Nat
  blackElo : Nat
  round : Nat
  ecoCategory : Nat
  ecoIndex : Nat
  customStartPos : Option (List Nat)
  result : Option GameResultM
  additionalTags : List (List Nat × List Nat)
  white : List Nat
  black : List Nat
  event : List Nat
  site : List Nat
  numPlies : Nat
  movetext : List Nat
deriving DecidableEq

/-- `BcgnGameEntryBuffer::computeHeaderLength` (Bcgn.cpp:408-445). -/
def computeHeaderLength (b : BcgnGameEntryBuffer) : Nat :=
  let lengthOfMandatoryFixedLengthFields :=
    2 + 2 +
    2 +
    4 +
    2 + 2 + 2 + 2 +
    1 +
    4
  lengthOfMandatoryFixedLengthFields
    + (if b.customStartPos.isSome then 24 else 0)
    + b.white.length
    + b.black.length
    + b.event.length
    + b.site.length
    + (if b.additionalTags = [] then 0
       else 1 + (b.additionalTags.map (fun t =>
         2 + min bcgnMaxStringLength t.1.length + min bcgnMaxStringLength t.2.length)).sum)

/-- `BcgnGameEntryBuffer::mapResultToInt` (Bcgn.cpp:376-397). -/
def mapResultToInt (b : BcgnGameEntryBuffer) : Nat :=
  match b.result with
  | none => 0
  | some .WhiteWin => 1
  | some .BlackWin => 2
  | some .Draw => 3

/-- `BcgnFlags::encode`: bit 1 = has custom start position, bit 0 = has
additional tags; `writeTo` sets both from the buffer contents just before
encoding. -/
def bcgnFlagsEncode (b : BcgnGameEntryBuffer) : Nat :=
  (if b.customStartPos.isSome then 2 else 0) + (if b.additionalTags = [] then 0 else 1)

/-- `BcgnGameEntryBuffer::writeBigEndian` (Bcgn.cpp:399-406): high byte then
low byte. -/
def writeBigEndian16 (v : Nat) : List Nat :=
  [(v >>> 8) % 256, v % 256]

/-- `writeString(buffer, str, length)` (Bcgn.cpp:354-374): one length byte
followed by the stored bytes. -/
def writeStoredString (s : List Nat) : List Nat :=
  s.length % 256 :: s

/-- `writeString(buffer, str)` (Bcgn.cpp:354-363): clamps to
`maxStringLength` first (used for additional tag names and values). -/
def writeClampedString (s : List Nat) : List Nat :=
  let length := min bcgnMaxStringLength s.length
  length :: s.take length

/-- The byte sequence emitted by the non-throwing part of
`BcgnGameEntryBuffer::writeTo` (Bcgn.cpp:290-345). -/
def bcgnSerialize (b : BcgnGameEntryBuffer) (totalLength headerLength : Nat) : List Nat :=
  writeBigEndian16 totalLength
    ++ writeBigEndian16 headerLength
    ++ [(b.numPlies >>> 6) % 256, ((b.numPlies <<< 2) ||| mapResultToInt b) % 256]
    ++ writeBigEndian16 b.year
    ++ [b.month % 256, b.day % 256]
    ++ writeBigEndian16 b.whiteElo
    ++ writeBigEndian16 b.blackElo
    ++ writeBigEndian16 b.round
    ++ [b.ecoCategory % 256, b.ecoIndex % 256]
    ++ [bcgnFlagsEncode b]
    ++ (match b.customStartPos with
        | some cp => cp
        | none => [])
    ++ writeStoredString b.white
    ++ writeStoredString b.black
    ++ writeStoredString b.event
    ++ writeStoredString b.site
    ++ (if b.additionalTags = [] then []
        else b.additionalTags.length % 256
          :: (b.additionalTags.map (fun t => writeClampedString t.1 ++ writeClampedString t.2)).flatten)
    ++ b.movetext

/-- `BcgnGameEntryBuffer::writeTo` (Bcgn.cpp:290-345): computes the record
length and throws (`Except.error`) when
`totalLength >= std::numeric_limits<std::uint16_t>::max()`, i.e. when it is
at least 65535; otherwise emits the serialized record. -/
def bcgnWriteTo (b : BcgnGameEntryBuffer) : Except String (List Nat) :=
  let headerLength := computeHeaderLength b
  let movetextLength := b.movetext.length
  let totalLength := headerLength + movetextLength
  if totalLength ≥ 65535 then
    Except.error "Game text must not be longer than 65535 bytes."
  else
    Except.ok (bcgnSerialize b totalLength headerLength)

/-- A game buffer whose serialized record is exactly 65535 bytes: the
23-byte minimal header (empty strings, no tags, no custom start position)
plus 65512 bytes of move text. -/
def bcgnBuffer65535 : BcgnGameEntryBuffer :=
  ⟨2020, 1, 1, 0, 0, 0, 0, 0, none, some GameResultM.Draw, [],
    [], [], [], [], 40, List.replicate 65512 0⟩

/-- The same game buffer with one byte of move text fewer: a 65534-byte
record. -/
def bcgnBuffer65534 : BcgnGameEntryBuffer :=
  ⟨2020, 1, 1, 0, 0, 0, 0, 0, none, some GameResultM.Draw, [],
    [], [], [], [], 40, List.replicate 65511 0⟩

/-! ## Socket framing (src/unnamed/part_003:270-368) -/

/-- The verification constant of the framing protocol. -/
def frameXorValue : Nat := 3173045653

/-- The little-endian u32 assembled from bytes 0..3 by the `+= / *= 256`
sequence in `receiveLength`. -/
def frameSizeField (str : List Nat) : Nat :=
  ((str.getD 3 0 * 256 + str.getD 2 0) * 256 + str.getD 1 0) * 256 + str.getD 0 0

/-- The little-endian u32 assembled from bytes 4..7, before the XOR. -/
def frameCheckField (str : List Nat) : Nat :=
  ((str.getD 7 0 * 256 + str.getD 6 0) * 256 + str.getD 5 0) * 256 + str.getD 4 0

/-- `receiveLength` (part_003:270-293): decode the two little-endian words,
XOR the second with the constant, and return the size only when they agree;
on a mismatch return 0 (the connection is not touched). -/
def receiveLength (str : List Nat) : Nat :=
  let size := frameSizeField str
  let xoredSize := frameCheckField str ^^^ frameXorValue
  if size ≠ xoredSize then 0 else size

/-- `maxLength` in `MessageReceiver::onDataReceived`. -/
def maxMessageLength : Nat := 4 * 1024 * 1024

/-- `MessageReceiver`'s persistent state: `m_length` (bytes of the current
message still expected) and `m_message` (bytes accumulated so far). -/
structure MRState where
  mLength : Nat
  mMessage : List Nat
deriving DecidableEq

/-- The `while (len != 0)` loop of `MessageReceiver::onDataReceived`
(part_003:322-368).  `buf` is the data at the current buffer pointer and
`len` the remaining count; the source advances the pointer by the already
decremented `len` in the payload branch (`buffer += len` after
`len -= toRead`), which the model reproduces (`buf.drop len'`). -/
def onDataLoop (msgs : List (List Nat)) (st : MRState) (buf : List Nat) (len : Nat) :
    Except String (List (List Nat) × MRState) :=
  if hLen : len = 0 then Except.ok (msgs, st)
  else
    if st.mLength = 0 then
      if len < 8 then Except.error "Length did not arrive in one packet"
      else
        let newLength := receiveLength buf
        if newLength > maxMessageLength then Except.error "Message too long"
        else onDataLoop msgs { mLength := newLength, mMessage := [] } (buf.drop 8) (len - 8)
    else
      let toRead := min len st.mLength
      let message' := st.mMessage ++ buf.take toRead
      let mLength' := st.mLength - toRead
      let len' := len - toRead
      let buf' := buf.drop len'
      if mLength' = 0 then
        onDataLoop (msgs ++ [message']) { mLength := 0, mMessage := [] } buf' len'
      else
        onDataLoop msgs { mLength := mLength', mMessage := message' } buf' len'
termination_by len
decreasing_by
  · omega
  · simp only [Nat.min_def]
    split
    · rename_i hml hm
      omega
    · rename_i hml hm
      omega
  · simp only [Nat.min_def]
    split
    · rename_i hml hm
      omega
    · rename_i hml hm
      omega

/-- `MessageReceiver::onDataReceived(buffer, len)` with `len = buf.length`. -/
def onDataReceived (st : MRState) (buf : List Nat) :
    Except String (List (List Nat) × MRState) :=
  onDataLoop [] st buf buf.length

/-! ## persistence::local query-range path (ArithmeticUtility.h:292-398, 628-634, 901-916) -/

/-- `QueryResultRange` (ArithmeticUtility.h:292-330): the file the range was
found in (by id) and the `[begin, end)` offsets. -/
structure QueryResultRangeM where
  fileId : Nat
  beginIdx : Nat
  endIdx : Nat
deriving DecidableEq

/-- `QueryResult` (ArithmeticUtility.h:332-361): the collected ranges. -/
structure QueryResultM where
  ranges : List QueryResultRangeM
deriving DecidableEq

/-- A `File`: its decimal id and its (sorted) entry span. -/
structure FileM where
  id : Nat
  entries : List EntryL
deriving DecidableEq

/-- Modelled from the spec: `ext::equal_range_multiple_interp_indexed_cross`
lives in External.h, which is not under src/.  Per spec §4.7 step 4, it
returns, for every key, the `[begin, end)` offset pair of the inclusive key
range in the sorted run (empty ranges for absent keys).  On a run sorted by
`operator<`, that range is `[#entries below the key, #entries not above
the key)`. -/
def equalRangeInFile (entries : List EntryL) (key : Sig) : Nat × Nat :=
  (entries.countP (fun e => sigLess e.positionSignature key),
   entries.countP (fun e => !sigLess key e.positionSignature))

/-- The per-key search results of `File::queryRanges`. -/
def equalRangeMultiple (entries : List EntryL) (keys : List Sig) : List (Nat × Nat) :=
  keys.map (equalRangeInFile entries)

/-- The write-back loop of `File::queryRanges` (ArithmeticUtility.h:390-397):
for each index `i` with a non-empty range, `results[i].emplaceRange(...)`.
`std::vector::operator[]` past the end is undefined behaviour; the model
returns `none` there. -/
def writeResults (results : List QueryResultM) (fileId : Nat) :
    List (Nat × (Nat × Nat)) → Option (List QueryResultM)
  | [] => some results
  | (i, (first, second)) :: rest =>
    if second - first = 0 then writeResults results fileId rest
    else
      match results.get? i with
      | none => none
      | some r =>
        writeResults
          (results.set i { ranges := r.ranges ++ [{ fileId := fileId, beginIdx := first, endIdx := second }] })
          fileId rest

/-- `File::queryRanges(results, keys)` (ArithmeticUtility.h:363-398). -/
def fileQueryRanges (f : FileM) (results : List QueryResultM) (keys : List Sig) :
    Option (List QueryResultM) :=
  let searchResults := equalRangeMultiple f.entries keys
  writeResults results f.id searchResults.enum

/-- A `Partition` as the query path sees it: its installed files. -/
structure PartitionM where
  files : List FileM
deriving DecidableEq

/-- `Partition::queryRanges` (ArithmeticUtility.h:628-634): every file writes
into the same `results` vector. -/
def partitionQueryRanges (p : PartitionM) (results : List QueryResultM) (keys : List Sig) :
    Option (List QueryResultM) :=
  p.files.foldlM (fun acc f => fileQueryRanges f acc keys) results

/-- The single-target `Database::queryRanges(target, positions)`
(ArithmeticUtility.h:901-916): build one key per position, then declare
`std::vector<QueryResult> results;` — left EMPTY, never resized — and let
every partition of the target write into it.  (The multi-target overload at
lines 918-939 resizes `results` to `positions.size()` first.) -/
def databaseQueryRangesSingle (xxh : List Nat → Sig) (targetPartitions : List PartitionM)
    (positions : List Position) : Option (List QueryResultM) :=
  let keys := positions.map (mkPositionSignature xxh)
  let results : List QueryResultM := []
  targetPartitions.foldlM (fun acc p => partitionQueryRanges p acc keys) results

/-! ## Helper lemmas -/

theorem foldr_max_le (l : List Nat) (c : Nat) (h : ∀ x ∈ l, x ≤ c) :
    l.foldr (fun a m => max a m) 0 ≤ c := by
  induction l with
  | nil => exact Nat.zero_le c
  | cons a t ih =>
    simp only [List.foldr_cons]
    exact max_le (h a (by simp)) (ih fun x hx => h x (by simp [hx]))

theorem foldr_max_eq (l : List Nat) (y : Nat) (hy : y ∈ l) (hub : ∀ x ∈ l, x ≤ y) :
    l.foldr (fun a m => max a m) 0 = y := by
  induction l with
  | nil => cases hy
  | cons a t ih =>
    simp only [List.foldr_cons]
    rcases List.mem_cons.mp hy with rfl | hyt
    · exact max_eq_left (foldr_max_le t y fun x hx => hub x (by simp [hx]))
    · rw [ih hyt fun x hx => hub x (by simp [hx])]
      exact max_eq_right (hub a (by simp))

theorem le_getLast_of_sorted :
    ∀ (l : List Nat), l.Sorted (· ≤ ·) → ∀ x ∈ l, ∀ y, l.getLast? = some y → x ≤ y := by
  intro l
  induction l with
  | nil => simp
  | cons a t ih =>
    intro hs x hx y hy
    rcases List.sorted_cons.mp hs with ⟨ha, hts⟩
    cases t with
    | nil =>
      simp only [List.mem_singleton] at hx
      simp only [List.getLast?_singleton, Option.some.injEq] at hy
      omega
    | cons b t2 =>
      have hy' : (b :: t2).getLast? = some y := by
        simpa [List.getLast?_cons_cons] using hy
      have hyt : y ∈ b :: t2 := List.mem_of_mem_getLast? (Option.mem_def.mpr hy')
      rcases List.mem_cons.mp hx with rfl | hxt
      · exact ha y hyt
      · exact ih hts x hxt y hy'

theorem chain'_lt_range' (s : Nat) : ∀ n, (List.range' s n).Chain' (· < ·) := by
  intro n
  induction n generalizing s with
  | zero => simp
  | succ m ih =>
    rw [List.range'_succ]
    cases m with
    | zero => simp
    | succ k =>
      rw [List.range'_succ]
      exact List.Chain'.cons (by omega) (by simpa [List.range'_succ] using ih (s + 1))

theorem land_himask_eq (x : Nat) (hx : x < 2 ^ 32) :
    x &&& packedReverseMoveMaskComplement32 = 2 ^ 27 * (x / 2 ^ 27) := by
  have hmc : packedReverseMoveMaskComplement32 = 31 <<< 27 := by
    simp [packedReverseMoveMaskComplement32, packedReverseMoveMask,
      packedReverseMoveNumBits, Nat.shiftLeft_eq]
  have hrhs : 2 ^ 27 * (x / 2 ^ 27) = (x >>> 27) <<< 27 := by
    rw [Nat.shiftRight_eq_div_pow, Nat.shiftLeft_eq, Nat.mul_comm]
  rw [hmc, hrhs]
  apply Nat.eq_of_testBit_eq
  intro i
  rw [Nat.testBit_land, Nat.testBit_shiftLeft, Nat.testBit_shiftLeft, Nat.testBit_shiftRight]
  by_cases h27 : 27 ≤ i
  · have hadd : 27 + (i - 27) = i := by omega
    by_cases h32 : i < 32
    · have h31 : (31 : Nat).testBit (i - 27) = true := by
        have h5 : (31 : Nat) = 2 ^ 5 - 1 := by norm_num
        rw [h5, Nat.testBit_two_pow_sub_one]
        simp only [decide_eq_true_eq]
        omega
      simp [h27, h31, hadd]
    · have hxf : x.testBit i = false :=
        Nat.testBit_lt_two_pow (lt_of_lt_of_le hx (Nat.pow_le_pow_right (by norm_num) (by omega)))
      simp [h27, hadd, hxf]
  · simp [h27]

theorem land_himask_lt (a3 b3 : Nat) (ha : a3 < 2 ^ 32) (hb : b3 < 2 ^ 32)
    (h : (a3 &&& packedReverseMoveMaskComplement32) < (b3 &&& packedReverseMoveMaskComplement32)) :
    a3 < b3 := by
  rw [land_himask_eq a3 ha, land_himask_eq b3 hb] at h
  have hq : a3 / 2 ^ 27 < b3 / 2 ^ 27 := Nat.lt_of_mul_lt_mul_left h
  have h1 := Nat.div_add_mod a3 (2 ^ 27)
  have h2 := Nat.div_add_mod b3 (2 ^ 27)
  have hr : a3 % 2 ^ 27 < 2 ^ 27 := Nat.mod_lt a3 (by norm_num)
  have e : (2 : Nat) ^ 27 = 134217728 := by norm_num
  rw [e] at h1 h2 hr hq
  omega

theorem land_himask_inj (a3 b3 : Nat) (ha : a3 < 2 ^ 32) (hb : b3 < 2 ^ 32)
    (h : (a3 &&& packedReverseMoveMaskComplement32) = (b3 &&& packedReverseMoveMaskComplement32)) :
    a3 / 2 ^ 27 = b3 / 2 ^ 27 := by
  rw [land_himask_eq a3 ha, land_himask_eq b3 hb] at h
  exact Nat.eq_of_mul_eq_mul_left (by norm_num) h

/-! ## Claim theorems -/

/-- Claim C1, counterexample: in the partition state with installed run id 6
and pending future id 5 (reachable by `storeUnordered(pipeline, entries, 5)`
on an empty partition followed by `storeOrdered`, which installs a file at
`nextId() = 6` while the future is still pending), `nextId()` returns 6 —
not `max(6, 5) + 1 = 7` — and does not strictly exceed the installed id 6. -/
theorem c1_nextId_counterexample :
    nextId ⟨[6], [5]⟩ = 6 ∧ specNextId ⟨[6], [5]⟩ = 7 ∧
      ¬ (∀ i ∈ PartitionIds.files ⟨[6], [5]⟩, i < nextId ⟨[6], [5]⟩) := by
  refine ⟨rfl, rfl, by decide⟩

/-- Claim C1 (amended): `nextId()` returns (greatest future id) + 1 when the
future set is non-empty, else (id of the last installed run) + 1 when any
runs are installed, else 0.  When the installed ids and the future ids are
each ordered and every future id exceeds every installed id — the invariant
maintained by normal operation — this equals
`max(max installed id, max future id) + 1`, and the returned id strictly
exceeds the id of every run present, installed or pending. -/
theorem c1_nextId_amended (p : PartitionIds)
    (hfiles : p.files.Sorted (· ≤ ·))
    (hfut : p.futureFiles.Sorted (· ≤ ·))
    (hdisj : ∀ f ∈ p.files, ∀ g ∈ p.futureFiles, f < g) :
    nextId p = specNextId p ∧ ∀ i ∈ p.files ++ p.futureFiles, i < nextId p := by
  rcases hfl : p.futureFiles.getLast? with - | y
  · -- no future files
    have hfe : p.futureFiles = [] := List.getLast?_eq_none_iff.mp hfl
    rcases hgl : p.files.getLast? with - | z
    · have hfe2 : p.files = [] := List.getLast?_eq_none_iff.mp hgl
      constructor
      · simp [nextId, specNextId, hfe, hfe2, hfl, hgl]
      · simp [hfe, hfe2]
    · have hub : ∀ x ∈ p.files, x ≤ z := fun x hx => le_getLast_of_sorted p.files hfiles x hx z hgl
      have hzmem : z ∈ p.files := List.mem_of_mem_getLast? (Option.mem_def.mpr hgl)
      have hne : p.files ++ p.futureFiles ≠ [] := by
        intro hcon
        rw [hfe] at hcon
        simp only [List.append_nil] at hcon
        rw [hcon] at hzmem
        cases hzmem
      constructor
      · have : (p.files ++ p.futureFiles).foldr (fun a m => max a m) 0 = z := by
          apply foldr_max_eq
          · simp [hfe, hzmem]
          · intro x hx
            rw [hfe, List.append_nil] at hx
            exact hub x hx
        simp [nextId, specNextId, hfl, hgl, hne, this]
      · intro i hi
        rw [hfe, List.append_nil] at hi
        have : i ≤ z := hub i hi
        simp only [nextId, hfl, hgl]
        omega
  · -- future files present: nextId is the greatest future id + 1
    have hymem : y ∈ p.futureFiles := List.mem_of_mem_getLast? (Option.mem_def.mpr hfl)
    have hubf : ∀ g ∈ p.futureFiles, g ≤ y :=
      fun g hg => le_getLast_of_sorted p.futureFiles hfut g hg y hfl
    have hub : ∀ x ∈ p.files ++ p.futureFiles, x ≤ y := by
      intro x hx
      rcases List.mem_append.mp hx with hxf | hxg
      · exact le_of_lt (hdisj x hxf y hymem)
      · exact hubf x hxg
    have hne : p.files ++ p.futureFiles ≠ [] := by
      intro hcon
      have : y ∈ p.files ++ p.futureFiles := by simp [hymem]
      rw [hcon] at this
      cases this
    constructor
    · have : (p.files ++ p.futureFiles).foldr (fun a m => max a m) 0 = y :=
        foldr_max_eq _ y (by simp [hymem]) hub
      simp [nextId, specNextId, hfl, hne, this]
    · intro i hi
      have : i ≤ y := hub i hi
      simp only [nextId, hfl]
      omega

/-- Claim C1, witness: a concrete partition satisfying the operating
invariant, evaluated through the amended theorem. -/
theorem c1_nextId_amended_witness :
    nextId ⟨[1, 2], [4, 5]⟩ = specNextId ⟨[1, 2], [4, 5]⟩ ∧
      ∀ i ∈ PartitionIds.files ⟨[1, 2], [4, 5]⟩ ++ PartitionIds.futureFiles ⟨[1, 2], [4, 5]⟩,
        i < nextId ⟨[1, 2], [4, 5]⟩ :=
  c1_nextId_amended ⟨[1, 2], [4, 5]⟩ (by decide) (by decide) (by decide)

/-- Claim C2: the source of `AsyncStorePipeline::scheduleOrdered` emplaces
the job onto `m_sortQueue` — not onto `m_writeQueue` as the claim states —
while notifying `m_writeQueueNotEmpty`.  The sorting stage is therefore not
bypassed: the job sits in the sort queue, which only the sorting threads
drain. -/
theorem c2_scheduleOrdered_enqueues_to_sort_queue
    (s : PipelineState) (path : String) (elements : List EntryL) :
    (scheduleOrdered s path elements).1.sortQueue
        = s.sortQueue ++ [{ path := path, buffer := elements }] ∧
      (scheduleOrdered s path elements).1.writeQueue = s.writeQueue ∧
      (scheduleOrdered s path elements).2 = PipelineCV.writeQueueNotEmpty :=
  ⟨rfl, rfl, rfl⟩

/-- Claim C3: the `PositionSignature` stored in entry keys is computed only
from the 64-byte raw piece placement and the side to move, so two positions
identical in those two components — however their castling rights or
en-passant targets differ — produce equal signatures and hence equal stored
entry keys. -/
theorem c3_signature_ignores_castling_and_ep
    (xxh : List Nat → Sig) (p q : Position) (gi gj : Nat)
    (hpieces : p.piecesRaw = q.piecesRaw) (hside : p.sideToMove = q.sideToMove) :
    mkPositionSignature xxh p = mkPositionSignature xxh q ∧
      (mkEntryL xxh p gi).positionSignature = (mkEntryL xxh q gj).positionSignature := by
  have h : mkPositionSignature xxh p = mkPositionSignature xxh q := by
    unfold mkPositionSignature
    rw [hpieces, hside]
  exact ⟨h, by simpa [mkEntryL] using h⟩

/-- Claim C3, witness: two concrete positions with identical placement and
side to move but different castling rights and en-passant squares. -/
theorem c3_signature_witness :
    mkPositionSignature (fun _ => ⟨0, 0, 0, 0⟩) ⟨List.replicate 64 0, Color.White, 64, 0⟩
        = mkPositionSignature (fun _ => ⟨0, 0, 0, 0⟩) ⟨List.replicate 64 0, Color.White, 20, 15⟩ ∧
      (mkEntryL (fun _ => ⟨0, 0, 0, 0⟩) ⟨List.replicate 64 0, Color.White, 64, 0⟩ 3).positionSignature
        = (mkEntryL (fun _ => ⟨0, 0, 0, 0⟩) ⟨List.replicate 64 0, Color.White, 20, 15⟩ 7).positionSignature :=
  c3_signature_ignores_castling_and_ep (fun _ => ⟨0, 0, 0, 0⟩) _ _ 3 7 rfl rfl

/-- Claim C5: `Header::addGame` appends the serialized bytes to the byte log,
appends the log's pre-append size as the new offset, and returns the game
index equal to the number of games added before it; successive calls return
the strictly increasing indices `initial, initial+1, ...`, and the offset
array stays monotonically non-decreasing (each offset bounded by the log
size). -/
theorem c5_addGame_appends_and_is_monotone (s : HeaderStore) (entries : List (List Nat))
    (hmono : s.index.Chain' (· ≤ ·))
    (hbound : ∀ o ∈ s.index, o ≤ s.header.length) :
    (addGameRun s entries).2 = List.range' s.index.length entries.length ∧
      (addGameRun s entries).2.Chain' (· < ·) ∧
      (addGameRun s entries).1.header = s.header ++ entries.flatten ∧
      (addGameRun s entries).1.index.Chain' (· ≤ ·) ∧
      (∀ o ∈ (addGameRun s entries).1.index, o ≤ (addGameRun s entries).1.header.length) := by
  induction entries generalizing s with
  | nil =>
    refine ⟨rfl, by simp [addGameRun], by simp [addGameRun], ?_, ?_⟩
    · simpa [addGameRun] using hmono
    · simpa [addGameRun] using hbound
  | cons bytes rest ih =>
    have hstep : addHeader s bytes =
        ({ header := s.header ++ bytes, index := s.index ++ [s.header.length] },
          s.index.length) := by
      simp [addHeader]
    have hmono1 : (s.index ++ [s.header.length]).Chain' (· ≤ ·) := by
      rw [List.chain'_append]
      refine ⟨hmono, List.chain'_singleton _, ?_⟩
      intro x hx y hy
      simp only [List.head?_cons, Option.mem_def, Option.some.injEq] at hy
      subst hy
      exact hbound x (List.mem_of_mem_getLast? hx)
    have hbound1 : ∀ o ∈ s.index ++ [s.header.length], o ≤ (s.header ++ bytes).length := by
      intro o ho
      rcases List.mem_append.mp ho with h1 | h2
      · have := hbound o h1
        simp only [List.length_append]
        omega
      · simp only [List.mem_singleton] at h2
        subst h2
        simp only [List.length_append]
        omega
    have ihr := ih ⟨s.header ++ bytes, s.index ++ [s.header.length]⟩ hmono1 hbound1
    have hrun : addGameRun s (bytes :: rest) =
        ((addGameRun ⟨s.header ++ bytes, s.index ++ [s.header.length]⟩ rest).1,
          s.index.length :: (addGameRun ⟨s.header ++ bytes, s.index ++ [s.header.length]⟩ rest).2) := by
      simp [addGameRun, addHeader]
    obtain ⟨ih1, ih2, ih3, ih4, ih5⟩ := ihr
    dsimp only at ih1 ih3
    simp only [List.length_append, List.length_singleton] at ih1
    rw [hrun]
    dsimp only
    refine ⟨?_, ?_, ?_, ih4, ih5⟩
    · rw [ih1, List.length_cons, List.range'_succ]
    · rw [ih1]
      have h := chain'_lt_range' s.index.length (rest.length + 1)
      rw [List.range'_succ] at h
      exact h
    · rw [ih3]
      simp [List.append_assoc]

/-- Claim C5, witness: two games appended to an empty header store. -/
theorem c5_addGame_witness :
    (addGameRun ⟨[], []⟩ [[1, 2], [3]]).2 = List.range' 0 2 ∧
      (addGameRun ⟨[], []⟩ [[1, 2], [3]]).2.Chain' (· < ·) ∧
      (addGameRun ⟨[], []⟩ [[1, 2], [3]]).1.header = [] ++ [[1, 2], [3]].flatten ∧
      (addGameRun ⟨[], []⟩ [[1, 2], [3]]).1.index.Chain' (· ≤ ·) ∧
      (∀ o ∈ (addGameRun ⟨[], []⟩ [[1, 2], [3]]).1.index,
        o ≤ (addGameRun ⟨[], []⟩ [[1, 2], [3]]).1.header.length) := by
  have h := c5_addGame_appends_and_is_monotone ⟨[], []⟩ [[1, 2], [3]]
    (by simp) (by simp)
  simpa using h

theorem compareLessWithoutReverseMove_iff (a b : Sig) :
    compareLessWithoutReverseMove a b = true ↔
      a.h0 < b.h0 ∨ a.h0 = b.h0 ∧ (a.h1 < b.h1 ∨ a.h1 = b.h1 ∧ (a.h2 < b.h2 ∨ a.h2 = b.h2 ∧
        (a.h3 &&& packedReverseMoveMaskComplement32)
          < (b.h3 &&& packedReverseMoveMaskComplement32))) := by
  unfold compareLessWithoutReverseMove
  split_ifs with h1 h2 h3 h4 h5 h6 <;> simp_all <;> omega

theorem compareLessWithReverseMove_iff (a b : Sig) :
    compareLessWithReverseMove a b = true ↔
      a.h0 < b.h0 ∨ a.h0 = b.h0 ∧ (a.h1 < b.h1 ∨ a.h1 = b.h1 ∧ (a.h2 < b.h2 ∨ a.h2 = b.h2 ∧
        a.h3 < b.h3)) := by
  unfold compareLessWithReverseMove
  split_ifs with h1 h2 h3 h4 h5 h6 <;> simp_all <;> omega

theorem compareEqualWithoutReverseMove_iff (a b : Sig) :
    compareEqualWithoutReverseMove a b = true ↔
      a.h0 = b.h0 ∧ a.h1 = b.h1 ∧ a.h2 = b.h2 ∧
        (a.h3 &&& packedReverseMoveMaskComplement32)
          = (b.h3 &&& packedReverseMoveMaskComplement32) := by
  simp [compareEqualWithoutReverseMove, Bool.and_eq_true, decide_eq_true_eq, and_assoc]

/-- Claim C4: (i) the with-reverse-move ordering refines the hash-only
ordering; (ii) keys equal under `CompareEqualWithoutReverseMove` agree on
limbs 0..2 and on the high bits of limb 3, so they differ at most in the
27-bit reverse-move field; (iii) the constructor places the packed reverse
move in exactly the low 27 bits of limb 3, preserving the high bits of the
hash. -/
theorem c4_reverse_move_field_and_ordering
    (a b : Sig) (ha : a.h3 < 2 ^ 32) (hb : b.h3 < 2 ^ 32) :
    (compareLessWithoutReverseMove a b = true → compareLessWithReverseMove a b = true) ∧
      (compareEqualWithoutReverseMove a b = true →
        a.h0 = b.h0 ∧ a.h1 = b.h1 ∧ a.h2 = b.h2 ∧ a.h3 / 2 ^ 27 = b.h3 / 2 ^ 27) ∧
      (∀ (xxh : List Nat → Sig) (pos : Position) (rm : PackedReverseMove),
        (xxh pos.piecesRaw).h3 < 2 ^ 32 →
        (mkSigWithReverseMove xxh pos rm).h3 % 2 ^ 27 = rm.packed ∧
          (mkSigWithReverseMove xxh pos rm).h3 / 2 ^ 27 = (xxh pos.piecesRaw).h3 / 2 ^ 27) := by
  refine ⟨?_, ?_, ?_⟩
  · intro hlt
    rw [compareLessWithoutReverseMove_iff] at hlt
    rw [compareLessWithReverseMove_iff]
    rcases hlt with h | ⟨h0, h | ⟨h1, h | ⟨h2, h3⟩⟩⟩
    · exact Or.inl h
    · exact Or.inr ⟨h0, Or.inl h⟩
    · exact Or.inr ⟨h0, Or.inr ⟨h1, Or.inl h⟩⟩
    · exact Or.inr ⟨h0, Or.inr ⟨h1, Or.inr ⟨h2, land_himask_lt a.h3 b.h3 ha hb h3⟩⟩⟩
  · intro heq
    rw [compareEqualWithoutReverseMove_iff] at heq
    exact ⟨heq.1, heq.2.1, heq.2.2.1, land_himask_inj a.h3 b.h3 ha hb heq.2.2.2⟩
  · intro xxh pos rm hh
    have hp : rm.packed < 2 ^ 27 := by
      have h := rm.isLt
      simpa [packedReverseMoveNumBits] using h
    have hhi : (xxh pos.piecesRaw).h3 &&& packedReverseMoveMaskComplement32
        = 2 ^ 27 * ((xxh pos.piecesRaw).h3 / 2 ^ 27) := land_himask_eq _ hh
    have hor : (mkSigWithReverseMove xxh pos rm).h3
        = 2 ^ 27 * ((xxh pos.piecesRaw).h3 / 2 ^ 27) + rm.packed := by
      show ((xxh pos.piecesRaw).h3 &&& packedReverseMoveMaskComplement32) ||| rm.packed = _
      rw [hhi]
      exact (Nat.mul_add_lt_is_or hp _).symm
    constructor
    · rw [hor, Nat.mul_add_mod]
      exact Nat.mod_eq_of_lt hp
    · rw [hor, Nat.mul_add_div (by norm_num), Nat.div_eq_of_lt hp, Nat.add_zero]

/-- Claim C4, witness: two concrete keys equal outside the reverse-move
field, and a concrete packed reverse move, run through the theorem. -/
theorem c4_reverse_move_witness :
    (compareLessWithoutReverseMove ⟨1, 2, 3, 536871012⟩ ⟨1, 2, 3, 671088647⟩ = true →
        compareLessWithReverseMove ⟨1, 2, 3, 536871012⟩ ⟨1, 2, 3, 671088647⟩ = true) ∧
      (compareEqualWithoutReverseMove ⟨1, 2, 3, 536871012⟩ ⟨1, 2, 3, 671088647⟩ = true →
        (1 : Nat) = 1 ∧ (2 : Nat) = 2 ∧ (3 : Nat) = 3 ∧
          (536871012 : Nat) / 2 ^ 27 = (671088647 : Nat) / 2 ^ 27) ∧
      (∀ (xxh : List Nat → Sig) (pos : Position) (rm : PackedReverseMove),
        (xxh pos.piecesRaw).h3 < 2 ^ 32 →
        (mkSigWithReverseMove xxh pos rm).h3 % 2 ^ 27 = rm.packed ∧
          (mkSigWithReverseMove xxh pos rm).h3 / 2 ^ 27 = (xxh pos.piecesRaw).h3 / 2 ^ 27) :=
  c4_reverse_move_field_and_ordering ⟨1, 2, 3, 536871012⟩ ⟨1, 2, 3, 671088647⟩
    (by norm_num) (by norm_num)

theorem pushBucket_fold (r : GameResultM) (f : Position → EntryL) :
    ∀ (ps : List Position) (st : ImportState),
      (ps.foldl (fun acc pos => pushBucket acc r (f pos)) st).stats = st.stats ∧
      (ps.foldl (fun acc pos => pushBucket acc r (f pos)) st).headerCount = st.headerCount ∧
      totalEntries (ps.foldl (fun acc pos => pushBucket acc r (f pos)) st)
        = totalEntries st + ps.length := by
  intro ps
  induction ps with
  | nil => intro st; simp
  | cons p t ih =>
    intro st
    obtain ⟨i1, i2, i3⟩ := ih (pushBucket st r (f p))
    refine ⟨?_, ?_, ?_⟩
    · rw [List.foldl_cons, i1]
      cases r <;> rfl
    · rw [List.foldl_cons, i2]
      cases r <;> rfl
    · rw [List.foldl_cons, i3]
      have : totalEntries (pushBucket st r (f p)) = totalEntries st + 1 := by
        cases r <;> simp [pushBucket, totalEntries] <;> omega
      rw [this]
      simp [List.length_cons]
      omega

theorem importGame_skip (xxh : List Nat → Sig) (st : ImportState) (g : UnparsedGameM)
    (h : gameResult g = PgnGameResult.Unknown) :
    importGame xxh st g
      = { st with stats := { st.stats with numSkippedGames := st.stats.numSkippedGames + 1 } } := by
  simp [importGame, h]

theorem importGame_known (xxh : List Nat → Sig) (st : ImportState) (g : UnparsedGameM)
    (h : ¬ gameResult g = PgnGameResult.Unknown) :
    (importGame xxh st g).stats.numGames = st.stats.numGames + 1 ∧
      (importGame xxh st g).stats.numSkippedGames = st.stats.numSkippedGames ∧
      (importGame xxh st g).headerCount = st.headerCount + 1 ∧
      totalEntries (importGame xxh st g) = totalEntries st + g.positions.length := by
  obtain ⟨s1, s2, s3⟩ := pushBucket_fold (convertResult (gameResult g))
      (fun pos => mkEntryL xxh pos st.headerCount) g.positions
      { st with headerCount := st.headerCount + 1 }
  refine ⟨?_, ?_, ?_, ?_⟩
  · simp [importGame, h, s1]
  · simp [importGame, h, s1]
  · simp [importGame, h, s2]
  · simp [importGame, h, totalEntries]
    simp [totalEntries] at s3
    omega

/-- Claim C6 (amended): a game is skipped exactly when `result()` decodes to
`Unknown` over the NUL-terminated buffer suffix starting at its tag region —
so a game with no `Result` tag of its own may adopt a following game's tag
and be ingested, while a game whose search yields no tag anywhere in the
remaining buffer, or whose tag value does not decode to a known result, only
increments `numSkippedGames`, takes no game index, adds no header record and
emits no position entries; every ingested game adds exactly one header
record and one entry per position.  A PGN with results `1-0`, `*`, `0-1`
(each game's own `Result` tag being the first one in its suffix) yields
`numGames = 2`, `numSkippedGames = 1` and exactly two header records. -/
theorem c6_skip_unknown_result :
    (∀ (xxh : List Nat → Sig) (games : List UnparsedGameM) (st : ImportState),
      (importPgnsImplM xxh st games).stats.numGames
          = st.stats.numGames
            + games.countP (fun g => gameResult g ≠ PgnGameResult.Unknown) ∧
      (importPgnsImplM xxh st games).stats.numSkippedGames
          = st.stats.numSkippedGames
            + games.countP (fun g => gameResult g = PgnGameResult.Unknown) ∧
      (importPgnsImplM xxh st games).headerCount
          = st.headerCount + games.countP (fun g => gameResult g ≠ PgnGameResult.Unknown) ∧
      totalEntries (importPgnsImplM xxh st games)
          = totalEntries st
            + ((games.filter (fun g => gameResult g ≠ PgnGameResult.Unknown)).map
                (fun g => g.positions.length)).sum) ∧
    (importPgnsImplM (fun _ => ⟨0, 0, 0, 0⟩) initImportState
        [⟨("[Event \"A\"]\n[Result \"1-0\"]\n\n1. e4 e5 1-0\n\n[Result \"*\"]\n\n1. d4 *\n\n[Result \"0-1\"]\n\n1. c4 0-1\n\n").toList, [⟨[], Color.White, 64, 0⟩, ⟨[1], Color.Black, 64, 0⟩]⟩,
         ⟨("[Result \"*\"]\n\n1. d4 *\n\n[Result \"0-1\"]\n\n1. c4 0-1\n\n").toList, [⟨[], Color.White, 64, 0⟩]⟩,
         ⟨("[Result \"0-1\"]\n\n1. c4 0-1\n\n").toList, [⟨[2], Color.White, 64, 0⟩]⟩]).stats.numGames = 2 ∧
    (importPgnsImplM (fun _ => ⟨0, 0, 0, 0⟩) initImportState
        [⟨("[Event \"A\"]\n[Result \"1-0\"]\n\n1. e4 e5 1-0\n\n[Result \"*\"]\n\n1. d4 *\n\n[Result \"0-1\"]\n\n1. c4 0-1\n\n").toList, [⟨[], Color.White, 64, 0⟩, ⟨[1], Color.Black, 64, 0⟩]⟩,
         ⟨("[Result \"*\"]\n\n1. d4 *\n\n[Result \"0-1\"]\n\n1. c4 0-1\n\n").toList, [⟨[], Color.White, 64, 0⟩]⟩,
         ⟨("[Result \"0-1\"]\n\n1. c4 0-1\n\n").toList, [⟨[2], Color.White, 64, 0⟩]⟩]).stats.numSkippedGames = 1 ∧
    (importPgnsImplM (fun _ => ⟨0, 0, 0, 0⟩) initImportState
        [⟨("[Event \"A\"]\n[Result \"1-0\"]\n\n1. e4 e5 1-0\n\n[Result \"*\"]\n\n1. d4 *\n\n[Result \"0-1\"]\n\n1. c4 0-1\n\n").toList, [⟨[], Color.White, 64, 0⟩, ⟨[1], Color.Black, 64, 0⟩]⟩,
         ⟨("[Result \"*\"]\n\n1. d4 *\n\n[Result \"0-1\"]\n\n1. c4 0-1\n\n").toList, [⟨[], Color.White, 64, 0⟩]⟩,
         ⟨("[Result \"0-1\"]\n\n1. c4 0-1\n\n").toList, [⟨[2], Color.White, 64, 0⟩]⟩]).headerCount = 2 := by
  refine ⟨?_, by decide, by decide, by decide⟩
  intro xxh games
  induction games with
  | nil => intro st; simp [importPgnsImplM]
  | cons g gs ih =>
    intro st
    have hfold : importPgnsImplM xxh st (g :: gs)
        = importPgnsImplM xxh (importGame xxh st g) gs := rfl
    obtain ⟨i1, i2, i3, i4⟩ := ih (importGame xxh st g)
    rw [hfold]
    by_cases h : gameResult g = PgnGameResult.Unknown
    · rw [importGame_skip xxh st g h] at i1 i2 i3 i4
      rw [importGame_skip xxh st g h]
      refine ⟨?_, ?_, ?_, ?_⟩
      · rw [i1]; simp [List.countP_cons, h]
      · rw [i2]; simp [List.countP_cons, h]; omega
      · rw [i3]; simp [List.countP_cons, h]
      · rw [i4]; simp [List.filter_cons, h, totalEntries]
    · obtain ⟨k1, k2, k3, k4⟩ := importGame_known xxh st g h
      refine ⟨?_, ?_, ?_, ?_⟩
      · rw [i1, k1]; simp [List.countP_cons, h]; omega
      · rw [i2, k2]; simp [List.countP_cons, h]
      · rw [i3, k3]; simp [List.countP_cons, h]; omega
      · rw [i4, k4]; simp [List.filter_cons, h]; omega

/-- Claim C6, counterexample: a game whose own tag region (the bytes before
the first `"\n\n"`) contains no `Result` tag, followed in the read buffer by
another game carrying `[Result "1-0"]`.  The unbounded `strstr` in
`result()` reaches the later game's tag, so the game decodes to `WhiteWin`
and is ingested — `numGames = 1`, `numSkippedGames = 0`, one header record —
although the claim says a game with an absent `Result` tag is skipped,
assigned no game index and contributes no header record. -/
theorem c6_result_overrun_counterexample :
    findSubstr? ("[Event \"X\"]").toList ("Result".toList) = none ∧
      gameResult ⟨("[Event \"X\"]\n\n1. e4 e5\n\n[Result \"1-0\"]\n\n1. d4 d5\n\n").toList, [⟨[], Color.White, 64, 0⟩]⟩ = PgnGameResult.WhiteWin ∧
      (importPgnsImplM (fun _ => ⟨0, 0, 0, 0⟩) initImportState
        [⟨("[Event \"X\"]\n\n1. e4 e5\n\n[Result \"1-0\"]\n\n1. d4 d5\n\n").toList, [⟨[], Color.White, 64, 0⟩]⟩]).stats.numSkippedGames = 0 ∧
      (importPgnsImplM (fun _ => ⟨0, 0, 0, 0⟩) initImportState
        [⟨("[Event \"X\"]\n\n1. e4 e5\n\n[Result \"1-0\"]\n\n1. d4 d5\n\n").toList, [⟨[], Color.White, 64, 0⟩]⟩]).stats.numGames = 1 ∧
      (importPgnsImplM (fun _ => ⟨0, 0, 0, 0⟩) initImportState
        [⟨("[Event \"X\"]\n\n1. e4 e5\n\n[Result \"1-0\"]\n\n1. d4 d5\n\n").toList, [⟨[], Color.White, 64, 0⟩]⟩]).headerCount = 1 := by
  refine ⟨by decide, by decide, by decide, by decide, by decide⟩

theorem findGameBoundary_of_all_eq (l : List Char) (h : ∀ c ∈ l, c = 'a') :
    findGameBoundary? l = none := by
  induction l with
  | nil => rfl
  | cons c t ih =>
    cases t with
    | nil => rfl
    | cons c2 t2 =>
      have hc : c = 'a' := h c (by simp)
      have hrec : findGameBoundary? (c2 :: t2) = none :=
        ih (fun x hx => h x (by simp [hx]))
      simp [findGameBoundary?, hc, hrec]

theorem moveToNextGame_step (fuel : Nat) (s : PgnReaderState) (h1 : s.content ≠ [])
    (h2 : findGameBoundary? (s.content.drop s.firstUnprocessed) = none) :
    moveToNextGame (fuel + 1) s = moveToNextGame fuel (refillBuffer s) := by
  simp only [moveToNextGame, h1, h2]
  simp

theorem moveToNextGame_nil (fuel : Nat) (s : PgnReaderState) (h : s.content = []) :
    moveToNextGame (fuel + 1) s = (none, s) := by
  simp [moveToNextGame, h]

theorem refillBuffer_scrap (s : PgnReaderState) (h0 : s.firstUnprocessed = 0) :
    refillBuffer s = ⟨s.stream.take pgnBufferSize, 0, s.stream.drop pgnBufferSize⟩ := by
  simp [refillBuffer, h0]

/-- Claim C7 (amended): when the next boundary is not in the window the
reader refills: with a partially processed full buffer the unprocessed
suffix is moved to the buffer start and that many further bytes are read
behind it; when nothing was processed (no boundary in the entire buffer) the
whole buffer is scrapped and replaced with freshly read bytes — no
oversize-game error is raised anywhere — and once the buffer starts with the
terminating NUL the iteration simply ends with no game. -/
theorem c7_refill_and_clean_end (s : PgnReaderState) :
    (s.firstUnprocessed ≠ 0 → s.firstUnprocessed ≠ pgnBufferSize →
      s.content.length = pgnBufferSize →
      refillBuffer s =
        ⟨s.content.drop s.firstUnprocessed ++ s.stream.take s.firstUnprocessed, 0,
          s.stream.drop s.firstUnprocessed⟩) ∧
    (s.firstUnprocessed = 0 →
      refillBuffer s = ⟨s.stream.take pgnBufferSize, 0, s.stream.drop pgnBufferSize⟩) ∧
    (∀ fuel, s.content = [] → moveToNextGame (fuel + 1) s = (none, s)) := by
  refine ⟨?_, ?_, ?_⟩
  · intro h0 hbs hful
    simp [refillBuffer, h0, hbs, hful]
  · intro h0
    simp [refillBuffer, h0]
  · intro fuel hnil
    simp [moveToNextGame, hnil]

/-- Claim C7, witness: the three behaviours of the amended theorem at
concrete reader states (a mid-buffer refill, a scrapping refill, and a clean
end of iteration). -/
theorem c7_refill_witness :
    refillBuffer ⟨List.replicate 32768 'a', 5, ['b', 'c']⟩ =
        ⟨(List.replicate 32768 'a').drop 5 ++ (['b', 'c'] : List Char).take 5, 0,
          (['b', 'c'] : List Char).drop 5⟩ ∧
      refillBuffer ⟨['x'], 0, ['y']⟩ =
        ⟨(['y'] : List Char).take pgnBufferSize, 0, (['y'] : List Char).drop pgnBufferSize⟩ ∧
      moveToNextGame 4 ⟨[], 0, ['z']⟩ = (none, ⟨[], 0, ['z']⟩) :=
  ⟨(c7_refill_and_clean_end ⟨List.replicate 32768 'a', 5, ['b', 'c']⟩).1
      (by decide) (by decide)
      (by simp only [List.length_replicate, pgnBufferSize]),
    (c7_refill_and_clean_end ⟨['x'], 0, ['y']⟩).2.1 rfl,
    (c7_refill_and_clean_end ⟨[], 0, ['z']⟩).2.2 3 rfl⟩

/-- Claim C7, counterexample: a 40000-byte input with no `"\n\n"` boundary
anywhere.  The first read fills the entire buffer and no boundary is found
in it, yet the reader does not fail with an oversize-game error: it scraps
the buffer (twice) and the iteration ends cleanly with no game and no error
(the embedded reader has no error outcome at all, faithfully to the source,
which silently continues). -/
theorem c7_oversize_counterexample :
    (initPgnReader (List.replicate 40000 'a')).content.length = pgnBufferSize ∧
      findGameBoundary? (initPgnReader (List.replicate 40000 'a')).content = none ∧
      moveToNextGame 3 (initPgnReader (List.replicate 40000 'a')) =
        (none, ⟨[], 0, []⟩) := by
  have hinit : initPgnReader (List.replicate 40000 'a') =
      ⟨List.replicate 32768 'a', 0, List.replicate 7232 'a'⟩ := by
    unfold initPgnReader
    rw [List.take_replicate, List.drop_replicate,
      show min pgnBufferSize 40000 = 32768 from by decide,
      show 40000 - pgnBufferSize = 7232 from by decide]
  have hb : ∀ n, findGameBoundary? (List.replicate n 'a') = none := fun n =>
    findGameBoundary_of_all_eq _ (fun c hc => List.eq_of_mem_replicate hc)
  have hnn : ∀ (n : Nat), n ≠ 0 → List.replicate n 'a' ≠ [] := by
    intro n hn
    simp only [ne_eq, List.replicate_eq_nil_iff]
    exact hn
  have hr1 : refillBuffer ⟨List.replicate 32768 'a', 0, List.replicate 7232 'a'⟩ =
      ⟨List.replicate 7232 'a', 0, []⟩ := by
    have h := (refillBuffer_scrap ⟨List.replicate 32768 'a', 0, List.replicate 7232 'a'⟩ rfl)
    rw [h, List.take_replicate, List.drop_replicate,
      show min pgnBufferSize 7232 = 7232 from by decide,
      show 7232 - pgnBufferSize = 0 from by decide, List.replicate_zero]
  have hr2 : refillBuffer ⟨List.replicate 7232 'a', 0, []⟩ = ⟨[], 0, []⟩ := by
    have h := (refillBuffer_scrap ⟨List.replicate 7232 'a', 0, []⟩ rfl)
    rw [h]
    rfl
  refine ⟨by rw [hinit]; simp only [List.length_replicate, pgnBufferSize],
    by rw [hinit]; exact hb 32768, ?_⟩
  rw [hinit]
  have s1 : moveToNextGame 3 ⟨List.replicate 32768 'a', 0, List.replicate 7232 'a'⟩
      = moveToNextGame 2 ⟨List.replicate 7232 'a', 0, []⟩ := by
    rw [show (3 : Nat) = 2 + 1 from rfl,
      moveToNextGame_step 2 _ (hnn 32768 (by decide))
        (by rw [show (⟨List.replicate 32768 'a', 0, List.replicate 7232 'a'⟩ :
            PgnReaderState).content.drop 0 = List.replicate 32768 'a' from List.drop_zero _]
            exact hb 32768),
      hr1]
  have s2 : moveToNextGame 2 ⟨List.replicate 7232 'a', 0, []⟩
      = moveToNextGame 1 ⟨[], 0, []⟩ := by
    rw [show (2 : Nat) = 1 + 1 from rfl,
      moveToNextGame_step 1 _ (hnn 7232 (by decide))
        (by rw [show (⟨List.replicate 7232 'a', 0, []⟩ :
            PgnReaderState).content.drop 0 = List.replicate 7232 'a' from List.drop_zero _]
            exact hb 7232),
      hr2]
  rw [s1, s2, show (1 : Nat) = 0 + 1 from rfl, moveToNextGame_nil 0 _ rfl]

theorem writeClampedString_length (s : List Nat) :
    (writeClampedString s).length = 1 + min bcgnMaxStringLength s.length := by
  simp [writeClampedString, List.length_take]
  omega

theorem tagsBlock_length (tags : List (List Nat × List Nat)) :
    ((tags.map (fun t => writeClampedString t.1 ++ writeClampedString t.2)).flatten).length
      = (tags.map (fun t =>
          2 + min bcgnMaxStringLength t.1.length + min bcgnMaxStringLength t.2.length)).sum := by
  induction tags with
  | nil => rfl
  | cons t ts ih =>
    simp only [List.map_cons, List.flatten_cons, List.length_append, ih, List.sum_cons,
      writeClampedString_length]
    omega

/-- The serializer emits exactly `computeHeaderLength b + movetext` bytes:
the record length the length check reasons about. -/
theorem bcgnSerialize_length (b : BcgnGameEntryBuffer) (tl hl : Nat)
    (hcsp : ∀ cp ∈ b.customStartPos, cp.length = 24) :
    (bcgnSerialize b tl hl).length = computeHeaderLength b + b.movetext.length := by
  rcases hc : b.customStartPos with - | cp
  · rcases htags : b.additionalTags with - | ⟨t, ts⟩
    · simp [bcgnSerialize, computeHeaderLength, writeBigEndian16, writeStoredString, hc, htags]
      omega
    · simp only [bcgnSerialize, computeHeaderLength, writeBigEndian16, writeStoredString, hc,
        htags, List.length_append, List.length_cons, List.length_nil,
        if_neg (List.cons_ne_nil t ts), Option.isSome_none, Bool.false_eq_true, if_false]
      rw [tagsBlock_length]
      omega
  · have hcl : cp.length = 24 := hcsp cp (by rw [hc]; rfl)
    rcases htags : b.additionalTags with - | ⟨t, ts⟩
    · simp [bcgnSerialize, computeHeaderLength, writeBigEndian16, writeStoredString, hc, htags,
        hcl]
      omega
    · simp only [bcgnSerialize, computeHeaderLength, writeBigEndian16, writeStoredString, hc,
        htags, List.length_append, List.length_cons, List.length_nil, hcl,
        if_neg (List.cons_ne_nil t ts), Option.isSome_some, if_true]
      rw [tagsBlock_length]
      omega

/-- Claim C8: the BCGN writer's length check fires at `totalLength >= 65535`
(`>= std::numeric_limits<std::uint16_t>::max()`), so a game whose serialized
record is exactly 65535 bytes — which does not exceed 65535, and which the
writer's own error message ("must not be longer than 65535 bytes") says
should be accepted — is rejected, while a 65534-byte record is written as a
byte sequence of exactly that length. -/
theorem c8_writer_rejects_exactly_65535 :
    computeHeaderLength bcgnBuffer65535 = 23 ∧
      bcgnBuffer65535.movetext.length = 65512 ∧
      bcgnWriteTo bcgnBuffer65535
        = Except.error "Game text must not be longer than 65535 bytes." ∧
      (bcgnWriteTo bcgnBuffer65534).isOk = true ∧
      ((bcgnWriteTo bcgnBuffer65534).toOption.map List.length) = some 65534 := by
  have hlen : computeHeaderLength bcgnBuffer65535 = 23 := rfl
  have hlen' : computeHeaderLength bcgnBuffer65534 = 23 := rfl
  have hmt : bcgnBuffer65535.movetext = List.replicate 65512 (0 : Nat) := rfl
  have hmt' : bcgnBuffer65534.movetext = List.replicate 65511 (0 : Nat) := rfl
  refine ⟨hlen, by rw [hmt, List.length_replicate], ?_, ?_, ?_⟩
  · unfold bcgnWriteTo
    rw [hlen, hmt, List.length_replicate]
    exact if_pos (by norm_num)
  · unfold bcgnWriteTo
    rw [hlen', hmt', List.length_replicate]
    have hok : (if 23 + 65511 ≥ 65535 then
          (Except.error "Game text must not be longer than 65535 bytes." :
            Except String (List Nat))
        else Except.ok (bcgnSerialize bcgnBuffer65534 (23 + 65511) 23))
        = Except.ok (bcgnSerialize bcgnBuffer65534 (23 + 65511) 23) := if_neg (by norm_num)
    rw [hok]
    rfl
  · unfold bcgnWriteTo
    rw [hlen', hmt', List.length_replicate]
    have hok : (if 23 + 65511 ≥ 65535 then
          (Except.error "Game text must not be longer than 65535 bytes." :
            Except String (List Nat))
        else Except.ok (bcgnSerialize bcgnBuffer65534 (23 + 65511) 23))
        = Except.ok (bcgnSerialize bcgnBuffer65534 (23 + 65511) 23) := if_neg (by norm_num)
    rw [hok]
    rw [show ∀ (x : List Nat), (Except.ok x : Except String (List Nat)).toOption = some x
      from fun x => rfl]
    rw [Option.map_some']
    rw [bcgnSerialize_length _ _ _ (by intro cp hcp; rw [show bcgnBuffer65534.customStartPos = none from rfl] at hcp; cases hcp)]
    rw [hlen', hmt', List.length_replicate]

/-- Claim C9 (amended): the length is accepted only when the second word
equals `S XOR 3173045653` — `receiveLength` returns `S` exactly on a match
and `0` on a mismatch — but a mismatch does not close the connection: the
receiver consumes the 8 mismatched bytes, sets `m_length = 0` and simply
keeps waiting for the next header, completing without any error. -/
theorem c9_receiveLength_mismatch_is_not_fatal :
    (∀ str : List Nat, frameSizeField str = frameCheckField str ^^^ frameXorValue →
        receiveLength str = frameSizeField str) ∧
      (∀ str : List Nat, frameSizeField str ≠ frameCheckField str ^^^ frameXorValue →
        receiveLength str = 0) ∧
      (∀ frame : List Nat,
        frameSizeField frame ≠ frameCheckField frame ^^^ frameXorValue →
        onDataLoop [] ⟨0, []⟩ frame 8 = Except.ok ([], ⟨0, []⟩)) := by
  refine ⟨?_, ?_, ?_⟩
  · intro str h
    simp [receiveLength, h]
  · intro str h
    simp [receiveLength, h]
  · intro frame h
    have hrl : receiveLength frame = 0 := by simp [receiveLength, h]
    rw [onDataLoop]
    simp only [hrl]
    norm_num [maxMessageLength]
    rw [onDataLoop]
    simp

/-- Claim C9, witness: a concrete mismatched frame (`S = 5`, check word 0)
run through the theorem. -/
theorem c9_receiveLength_witness :
    receiveLength [5, 0, 0, 0, 0, 0, 0, 0] = 0 ∧
      onDataLoop [] ⟨0, []⟩ [5, 0, 0, 0, 0, 0, 0, 0] 8 = Except.ok ([], ⟨0, []⟩) :=
  ⟨(c9_receiveLength_mismatch_is_not_fatal.2.1 [5, 0, 0, 0, 0, 0, 0, 0] (by decide)),
    (c9_receiveLength_mismatch_is_not_fatal.2.2 [5, 0, 0, 0, 0, 0, 0, 0] (by decide))⟩

/-- Claim C9, counterexample: on the mismatched frame the receiver returns
`Except.ok` with no messages and stays in the awaiting-header state — the
connection is left open, contradicting "on a mismatch the connection is
closed"; a matching frame for the same length 5 is accepted. -/
theorem c9_mismatch_counterexample :
    receiveLength [5, 0, 0, 0, 0, 0, 0, 0] = 0 ∧
      onDataLoop [] ⟨0, []⟩ [5, 0, 0, 0, 0, 0, 0, 0] 8 = Except.ok ([], ⟨0, []⟩) ∧
      receiveLength [5, 0, 0, 0, 144, 213, 32, 189] = 5 := by
  refine ⟨by decide, ?_, by decide⟩
  rw [onDataLoop]
  norm_num [receiveLength, frameSizeField, frameCheckField, frameXorValue, maxMessageLength]
  rw [onDataLoop]
  simp

/-- Claim C10: the single-target `Database::queryRanges` declares its
`results` vector empty and never resizes it.  With a run containing an entry
for the queried key, `File::queryRanges` writes `results[0]` past the end of
the empty vector (undefined behaviour, modelled as `none`); and even with no
matching entry the returned vector is empty rather than holding one
`QueryResult` per queried position. -/
theorem c10_queryRanges_out_of_bounds :
    databaseQueryRangesSingle (fun _ => ⟨0, 0, 0, 0⟩)
        [⟨[⟨0, [⟨⟨0, 0, 0, 0⟩, 0⟩]⟩]⟩] [⟨[], Color.White, 64, 0⟩] = none ∧
      databaseQueryRangesSingle (fun _ => ⟨0, 0, 0, 0⟩)
        [⟨[⟨5, []⟩]⟩] [⟨[], Color.White, 64, 0⟩] = some [] := by
  constructor
  · rfl
  · rfl

end ChessPosDb
